import Mathlib

/-!
# Content freshness engine of the GrafanaDashboard resource

A shallow embedding of `api/v1beta1/grafanadashboard_types.go`.

Conventions of the embedding:

* a Go `[]byte` is a `ByteSlice`: `none` is the nil slice, `some bs` an allocated slice
  holding the bytes `bs` (possibly none at all);
* a Go `string` is a Lean `String`;
* `time.Duration` is a signed number of nanoseconds, `time.Time` (and `metav1.Time`, which
  embeds it) is a point of the time line counted in nanoseconds; `Add` and `After` are the
  sum and the strict order of that line, as documented by package `time` (the ends of the
  range that `time.Time` can hold, billions of years away, are not part of the model);
* `time.Now()` is an input of every function that reads the clock;
* the packages `compress/gzip` and `crypto/sha256` and the function `time.ParseDuration` are
  not part of the repository; the functions that call them take the library as an argument;
  the verb `%x` of `fmt` on a byte slice is written out as documented, two lower-case
  hexadecimal digits a byte;
* a method with a pointer receiver that assigns to the receiver returns the receiver it leaves
  behind next to its result; the methods that only read it are given as functions of the
  receiver and, for the statements about what they leave of it, as computations on it.
-/

namespace V1beta1

/-! ## Values of the Go runtime -/

/-- The bytes held by a slice. -/
abbrev Bytes := List UInt8

/-- A Go byte slice: the nil slice, or an allocated slice with its bytes. -/
abbrev ByteSlice := Option Bytes

/-- The bytes a library call sees when it is handed a slice: a nil slice holds none. -/
def ByteSlice.content : ByteSlice → Bytes
  | none => []
  | some bs => bs

/-- A Go error value, kept as its message. -/
abbrev GoError := String

/-- Type time.Duration, a count of nanoseconds. -/
abbrev Duration := Int

def Nanosecond : Duration := 1
def Microsecond : Duration := 1000 * Nanosecond
def Millisecond : Duration := 1000 * Microsecond
def Second : Duration := 1000 * Millisecond
def Minute : Duration := 60 * Second
def Hour : Duration := 60 * Minute

/-- An instant, in nanoseconds from a fixed origin of the time line. -/
structure Time where
  ns : Int
  deriving DecidableEq, Repr

/-- Method Add of time.Time: the instant t+d. -/
def Time.Add (t : Time) (d : Duration) : Time := ⟨t.ns + d⟩

/-- Method After of time.Time: whether the instant t is after u. -/
def Time.After (t u : Time) : Bool := decide (u.ns < t.ns)

/-- The calls into compress/gzip made by this file, as functions of the bytes involved.
The reading side is `gzip.NewReader(bytes.NewReader(compressed))` followed by `io.ReadAll`;
the writing side is a `gzip.NewWriter` over an empty `bytes.Buffer`, `Write`, `Close`, and the
bytes then found in the buffer. -/
structure GzipLib where
  /-- Error of gzip.NewReader on a reader over the given bytes, if the header is rejected. -/
  NewReader : Bytes → Option GoError
  /-- Result of io.ReadAll on the gzip reader opened over the given bytes: the bytes read
  before the stream ended or failed, and the failure if there was one. -/
  ReadAll : Bytes → Bytes × Option GoError
  /-- Error of gz.Write(content) on a fresh writer, if any. -/
  Write : Bytes → Option GoError
  /-- Error of gz.Close() after the content was written, if any. -/
  Close : Bytes → Option GoError
  /-- Bytes in the buffer once the content was written and the writer closed. -/
  Buffer : Bytes → Bytes

/-! ## Data model -/

abbrev DashboardSourceType := String

def DashboardSourceTypeRawJson : DashboardSourceType := "json"
def DashboardSourceTypeGzipJson : DashboardSourceType := "gzipJson"
def DashboardSourceTypeUrl : DashboardSourceType := "url"
def DashboardSourceTypeJsonnet : DashboardSourceType := "jsonnet"
def DashboardSourceTypeGrafanaCom : DashboardSourceType := "grafana"
def DefaultResyncPeriod : String := "5m"

structure GrafanaDashboardDatasource where
  InputName : String
  DatasourceName : String
  deriving DecidableEq, Repr

/-- GrafanaComDashboardReference is a reference to a dashboard on grafana.com/dashboards. -/
structure GrafanaComDashboardReference where
  Id : Int
  Revision : Option Int
  deriving DecidableEq, Repr

/-- Label selector of apimachinery, kept as its match-labels pairs; no function here reads it. -/
structure LabelSelector where
  MatchLabels : List (String × String)
  deriving DecidableEq, Repr

/-- Entry of the plugin list, which is declared in another file of the package and read by no
function here. -/
structure GrafanaPlugin where
  Name : String
  Version : String
  deriving DecidableEq, Repr

abbrev PluginList := List GrafanaPlugin

/-- GrafanaDashboardSpec defines the desired state of GrafanaDashboard. -/
structure GrafanaDashboardSpec where
  Json : String
  GzipJson : ByteSlice
  Url : String
  Jsonnet : String
  GrafanaCom : Option GrafanaComDashboardReference
  InstanceSelector : Option LabelSelector
  FolderTitle : String
  Plugins : PluginList
  ContentCacheDuration : Duration
  ResyncPeriod : String
  Datasources : List GrafanaDashboardDatasource
  AllowCrossNamespaceImport : Option Bool
  deriving DecidableEq, Repr

/-- GrafanaDashboardStatus defines the observed state of GrafanaDashboard. -/
structure GrafanaDashboardStatus where
  ContentCache : ByteSlice
  ContentTimestamp : Time
  ContentUrl : String
  Hash : String
  NoMatchingInstances : Bool
  LastResync : Time
  deriving DecidableEq, Repr

/-- GrafanaDashboard: the object metadata is kept as the two fields the package reads. -/
structure GrafanaDashboard where
  Namespace : String
  Name : String
  Spec : GrafanaDashboardSpec
  Status : GrafanaDashboardStatus
  deriving DecidableEq, Repr

/-- GrafanaDashboardList contains a list of GrafanaDashboard. -/
structure GrafanaDashboardList where
  Items : List GrafanaDashboard
  deriving DecidableEq, Repr

/-! ## Compression wrappers -/

/-- Gunzip: the pair of results of the Go function, bytes and error. -/
def Gunzip (lib : GzipLib) (compressed : ByteSlice) : ByteSlice × Option GoError :=
  match lib.NewReader compressed.content with
  | some err => (none, some err)
  | none =>
    let r := lib.ReadAll compressed.content
    (some r.1, r.2)

/-- Gzip: the pair of results of the Go function, bytes and error. -/
def Gzip (lib : GzipLib) (content : ByteSlice) : ByteSlice × Option GoError :=
  match lib.Write content.content with
  | some err => (none, some err)
  | none =>
    match lib.Close content.content with
    | some err => (none, some err)
    | none => (some (lib.Buffer content.content), none)

/-! ## Cache validator -/

/-- getContentCache returns content cache when the following conditions are met: url is the
same, data is not expired, gzipped data is not corrupted. -/
def GrafanaDashboardStatus.getContentCache (lib : GzipLib) (now : Time)
    (st : GrafanaDashboardStatus) (url : String) (cacheDuration : Duration) : ByteSlice :=
  if st.ContentUrl ≠ url then
    some []
  else
    let notExpired := decide (cacheDuration ≤ 0) || (st.ContentTimestamp.Add cacheDuration).After now
    if !notExpired then
      some []
    else
      match Gunzip lib st.ContentCache with
      | (_, some _) => some []
      | (cache, none) => cache

def GrafanaDashboard.GetContentCache (lib : GzipLib) (now : Time) (d : GrafanaDashboard) :
    ByteSlice :=
  d.Status.getContentCache lib now d.Spec.Url d.Spec.ContentCacheDuration

/-! ## Duration strings -/

/-- Helper leadingInt of package time: consumes the leading [0-9]* and returns its value, or
nothing on overflow; the second argument is the value read so far. -/
def leadingInt : List Char → Nat → Option (Nat × List Char)
  | [], x => some (x, [])
  | c :: cs, x =>
    if c < '0' || c > '9' then some (x, c :: cs)
    else if x > 2 ^ 63 / 10 then none
    else
      let x1 := x * 10 + (c.toNat - '0'.toNat)
      if x1 > 2 ^ 63 then none else leadingInt cs x1

/-- Helper leadingFraction of package time: consumes the leading [0-9]* after a period and
returns the digits kept as a number, the power of ten that scales them, and the rest. -/
def leadingFraction : List Char → Nat → Nat → Bool → Nat × Nat × List Char
  | [], x, scale, _ => (x, scale, [])
  | c :: cs, x, scale, overflow =>
    if c < '0' || c > '9' then (x, scale, c :: cs)
    else if overflow then leadingFraction cs x scale overflow
    else if x > (2 ^ 63 - 1) / 10 then leadingFraction cs x scale true
    else
      let y := x * 10 + (c.toNat - '0'.toNat)
      if y > 2 ^ 63 then leadingFraction cs x scale true
      else leadingFraction cs y (scale * 10) false

/-- Table unitMap of package time. -/
def unitMap (u : String) : Option Nat :=
  if u = "ns" then some 1
  else if u = "us" then some 1000
  else if u = "µs" then some 1000
  else if u = "μs" then some 1000
  else if u = "ms" then some 1000000
  else if u = "s" then some 1000000000
  else if u = "m" then some 60000000000
  else if u = "h" then some 3600000000000
  else none

/-- The loop of time.ParseDuration over the groups number-unit: the first argument bounds the
number of groups, which is at most the length of the string; d is the sum so far, in uint64. -/
def parseGroups (frac : Nat → Nat → Nat → Nat) : Nat → List Char → Nat → Option Nat
  | 0, s, d => if s = [] then some d else none
  | n + 1, s, d =>
    match s with
    | [] => some d
    | c :: _ =>
      if !(c = '.' || ('0' ≤ c && c ≤ '9')) then none
      else
        match leadingInt s 0 with
        | none => none
        | some (v, s1) =>
          let pre := s.length != s1.length
          let (f, scale, s2, post) :=
            match s1 with
            | '.' :: t =>
              let r := leadingFraction t 0 1 false
              (r.1, r.2.1, r.2.2, t.length != r.2.2.length)
            | _ => (0, 1, s1, false)
          if !pre && !post then none
          else
            let u := s2.takeWhile (fun c => !(c = '.' || ('0' ≤ c && c ≤ '9')))
            let s3 := s2.dropWhile (fun c => !(c = '.' || ('0' ≤ c && c ≤ '9')))
            if u = [] then none
            else
              match unitMap (String.mk u) with
              | none => none
              | some unit =>
                if v > 2 ^ 63 / unit then none
                else
                  let v1 := v * unit
                  let v2 := if f > 0 then (v1 + frac f unit scale) % 2 ^ 64 else v1
                  if f > 0 && v2 > 2 ^ 63 then none
                  else
                    let d1 := (d + v2) % 2 ^ 64
                    if d1 > 2 ^ 63 then none else parseGroups frac n s3 d1

/-- Function time.ParseDuration of the Go standard library, with an absent result for an
error. The nanoseconds of a fractional part are computed by Go in float64, as
uint64(float64(f) * (float64(unit) / scale)); that computation is the argument frac. -/
def ParseDuration (frac : Nat → Nat → Nat → Nat) (s : String) : Option Duration :=
  let (neg, s1) : Bool × List Char :=
    match s.toList with
    | '-' :: t => (true, t)
    | '+' :: t => (false, t)
    | l => (false, l)
  if s1 = ['0'] then some 0
  else if s1 = [] then none
  else
    match parseGroups frac s1.length s1 0 with
    | none => none
    | some d =>
      if neg then some (-(d : Int))
      else if d > 2 ^ 63 - 1 then none
      else some (d : Int)

/-- Stand-in for the float64 step of ParseDuration that rounds the exact quotient down. It is
not the value Go computes for every fraction (float64 rounding can end one nanosecond lower);
no statement below parses a string with a fractional part. -/
def fracFloor (f unit scale : Nat) : Nat := f * unit / scale

/-! ## Change detector -/

/-- Digits of fmt for the verb %x. -/
def ldigits : List Char :=
  ['0', '1', '2', '3', '4', '5', '6', '7', '8', '9', 'a', 'b', 'c', 'd', 'e', 'f']

/-- The digit of fmt for a value below sixteen. -/
def hexDigit (n : Nat) : Char := ldigits.getD n '0'

/-- Verb %x of fmt on a byte slice: two lower-case hexadecimal digits a byte, the high
half first, nothing between the bytes. -/
def hexChars : Bytes → List Char
  | [] => []
  | b :: bs => hexDigit (b.toNat / 16) :: hexDigit (b.toNat % 16) :: hexChars bs

/-- The value a lower-case hexadecimal digit stands for; sixteen for any other character. -/
def hexValue (c : Char) : Nat :=
  if '0' ≤ c ∧ c ≤ '9' then c.toNat - '0'.toNat
  else if 'a' ≤ c ∧ c ≤ 'f' then c.toNat - 'a'.toNat + 10
  else 16

/-- Hash. The argument sum256 is crypto/sha256: from the bytes written to a new hash, the
digest that hash.Sum(nil) returns. The receiver is not read. -/
def GrafanaDashboard.Hash (sum256 : Bytes → Bytes) (_d : GrafanaDashboard)
    (dashboardJson : ByteSlice) : String :=
  String.mk (hexChars (sum256 dashboardJson.content))

def GrafanaDashboard.Unchanged (d : GrafanaDashboard) (hash : String) : Bool :=
  decide (d.Status.Hash = hash)

/-- GetResyncPeriod. The method assigns to the receiver, so the receiver it leaves behind is
returned with the duration. The first argument bounds the depth of the calls of the method to
itself (the outermost call counts); the result is absent when the bound is exceeded. The
argument parse is time.ParseDuration, with an absent result for an error. -/
def GrafanaDashboard.GetResyncPeriod (parse : String → Option Duration) :
    Nat → GrafanaDashboard → Option (Duration × GrafanaDashboard)
  | 0, _ => none
  | fuel + 1, d =>
    if d.Spec.ResyncPeriod = "" then
      GrafanaDashboard.GetResyncPeriod parse fuel
        { d with Spec := { d.Spec with ResyncPeriod := DefaultResyncPeriod } }
    else
      match parse d.Spec.ResyncPeriod with
      | none =>
        GrafanaDashboard.GetResyncPeriod parse fuel
          { d with Spec := { d.Spec with ResyncPeriod := DefaultResyncPeriod } }
      | some duration => some (duration, d)

/-- ResyncPeriodHasElapsed, with the receiver that the call to GetResyncPeriod leaves behind. -/
def GrafanaDashboard.ResyncPeriodHasElapsed (parse : String → Option Duration) (fuel : Nat)
    (now : Time) (d : GrafanaDashboard) : Option (Bool × GrafanaDashboard) :=
  match d.GetResyncPeriod parse fuel with
  | none => none
  | some (period, d1) =>
    let deadline := d1.Status.LastResync.Add period
    some (now.After deadline, d1)

/-! ## Source resolver -/

def GrafanaDashboard.GetSourceTypes (d : GrafanaDashboard) : List DashboardSourceType :=
  let sourceTypes : List DashboardSourceType := []
  let sourceTypes :=
    if d.Spec.Json ≠ "" then sourceTypes ++ [DashboardSourceTypeRawJson] else sourceTypes
  let sourceTypes :=
    if d.Spec.GzipJson ≠ none then sourceTypes ++ [DashboardSourceTypeGzipJson] else sourceTypes
  let sourceTypes :=
    if d.Spec.Url ≠ "" then sourceTypes ++ [DashboardSourceTypeUrl] else sourceTypes
  let sourceTypes :=
    if d.Spec.Jsonnet ≠ "" then sourceTypes ++ [DashboardSourceTypeJsonnet] else sourceTypes
  let sourceTypes :=
    if d.Spec.GrafanaCom ≠ none then sourceTypes ++ [DashboardSourceTypeGrafanaCom]
    else sourceTypes
  sourceTypes

/-! ## Other accessors -/

def GrafanaDashboard.IsAllowCrossNamespaceImport (d : GrafanaDashboard) : Bool :=
  match d.Spec.AllowCrossNamespaceImport with
  | some b => b
  | none => false

/-- The range loop of Find over the items still to visit: the first match ends it. -/
def findItems (namespace_ : String) (name : String) :
    List GrafanaDashboard → Option GrafanaDashboard
  | [] => none
  | dashboard :: rest =>
    if dashboard.Namespace = namespace_ ∧ dashboard.Name = name then some dashboard
    else findItems namespace_ name rest

/-- Find returns a pointer to a copy of the matching item, or nil. -/
def GrafanaDashboardList.Find (l : GrafanaDashboardList) (namespace_ : String) (name : String) :
    Option GrafanaDashboard :=
  findItems namespace_ name l.Items

/-! ## The read-only methods as computations on the receiver

The five methods below have a pointer receiver like GetResyncPeriod. Here each body is
written statement by statement as a computation that can read and assign the value the
receiver points to, and that returns the receiver it leaves behind next to its result. -/

/-- Hash as a computation on the receiver. -/
def GrafanaDashboard.HashCall (sum256 : Bytes → Bytes) (dashboardJson : ByteSlice) :
    StateM GrafanaDashboard String := do
  let sum := sum256 dashboardJson.content
  return String.mk (hexChars sum)

/-- Unchanged as a computation on the receiver. -/
def GrafanaDashboard.UnchangedCall (hash : String) : StateM GrafanaDashboard Bool := do
  let in_ ← get
  return decide (in_.Status.Hash = hash)

/-- GetSourceTypes as a computation on the receiver. -/
def GrafanaDashboard.GetSourceTypesCall :
    StateM GrafanaDashboard (List DashboardSourceType) := do
  let in_ ← get
  let mut sourceTypes : List DashboardSourceType := []
  if in_.Spec.Json ≠ "" then
    sourceTypes := sourceTypes ++ [DashboardSourceTypeRawJson]
  if in_.Spec.GzipJson ≠ none then
    sourceTypes := sourceTypes ++ [DashboardSourceTypeGzipJson]
  if in_.Spec.Url ≠ "" then
    sourceTypes := sourceTypes ++ [DashboardSourceTypeUrl]
  if in_.Spec.Jsonnet ≠ "" then
    sourceTypes := sourceTypes ++ [DashboardSourceTypeJsonnet]
  if in_.Spec.GrafanaCom ≠ none then
    sourceTypes := sourceTypes ++ [DashboardSourceTypeGrafanaCom]
  return sourceTypes

/-- Method getContentCache as a computation on its receiver, the status. -/
def GrafanaDashboardStatus.getContentCacheCall (lib : GzipLib) (now : Time) (url : String)
    (cacheDuration : Duration) : StateM GrafanaDashboardStatus ByteSlice := do
  let in_ ← get
  if in_.ContentUrl ≠ url then
    return some []
  let notExpired :=
    decide (cacheDuration ≤ 0) || (in_.ContentTimestamp.Add cacheDuration).After now
  if !notExpired then
    return some []
  match Gunzip lib in_.ContentCache with
  | (_, some _) => return some []
  | (cache, none) => return cache

/-- GetContentCache as a computation on the receiver: the call on in.Status runs on the
status of the dashboard, and the status that call leaves behind is the dashboard's. -/
def GrafanaDashboard.GetContentCacheCall (lib : GzipLib) (now : Time) :
    StateM GrafanaDashboard ByteSlice := do
  let in_ ← get
  let r := (GrafanaDashboardStatus.getContentCacheCall lib now in_.Spec.Url
    in_.Spec.ContentCacheDuration).run in_.Status
  set { in_ with Status := r.2 }
  return r.1

/-- IsAllowCrossNamespaceImport as a computation on the receiver. -/
def GrafanaDashboard.IsAllowCrossNamespaceImportCall : StateM GrafanaDashboard Bool := do
  let in_ ← get
  match in_.Spec.AllowCrossNamespaceImport with
  | some b => return b
  | none => return false

/-! ## Instances of the libraries and sample dashboards -/

/-- Round constants of SHA-256 (FIPS 180-4, section 4.2.2). -/
def sha256K : List Nat :=
  [
    0x428a2f98, 0x71374491, 0xb5c0fbcf, 0xe9b5dba5,
    0x3956c25b, 0x59f111f1, 0x923f82a4, 0xab1c5ed5,
    0xd807aa98, 0x12835b01, 0x243185be, 0x550c7dc3,
    0x72be5d74, 0x80deb1fe, 0x9bdc06a7, 0xc19bf174,
    0xe49b69c1, 0xefbe4786, 0x0fc19dc6, 0x240ca1cc,
    0x2de92c6f, 0x4a7484aa, 0x5cb0a9dc, 0x76f988da,
    0x983e5152, 0xa831c66d, 0xb00327c8, 0xbf597fc7,
    0xc6e00bf3, 0xd5a79147, 0x06ca6351, 0x14292967,
    0x27b70a85, 0x2e1b2138, 0x4d2c6dfc, 0x53380d13,
    0x650a7354, 0x766a0abb, 0x81c2c92e, 0x92722c85,
    0xa2bfe8a1, 0xa81a664b, 0xc24b8b70, 0xc76c51a3,
    0xd192e819, 0xd6990624, 0xf40e3585, 0x106aa070,
    0x19a4c116, 0x1e376c08, 0x2748774c, 0x34b0bcb5,
    0x391c0cb3, 0x4ed8aa4a, 0x5b9cca4f, 0x682e6ff3,
    0x748f82ee, 0x78a5636f, 0x84c87814, 0x8cc70208,
    0x90befffa, 0xa4506ceb, 0xbef9a3f7, 0xc67178f2
  ]

/-- Working variables and chaining value of SHA-256, eight words of 32 bits. -/
structure Sha256State where
  a : Nat
  b : Nat
  c : Nat
  d : Nat
  e : Nat
  f : Nat
  g : Nat
  h : Nat
  deriving DecidableEq, Repr

/-- Initial hash value of SHA-256 (FIPS 180-4, section 5.3.3). -/
def sha256Init : Sha256State :=
  ⟨0x6a09e667, 0xbb67ae85, 0x3c6ef372, 0xa54ff53a, 0x510e527f, 0x9b05688c, 0x1f83d9ab,
    0x5be0cd19⟩

/-- Rotation to the right of a word of 32 bits. -/
def rotr32 (x n : Nat) : Nat := ((x >>> n) ||| (x <<< (32 - n))) % 2 ^ 32

/-- Padding of SHA-256: the bit 1, zero bits up to 56 modulo 64 bytes, and the length of the
message in bits as 64 bits, big-endian. -/
def sha256Pad (msg : Bytes) : Bytes :=
  let bits := (8 * msg.length) % 2 ^ 64
  msg ++ [(0x80 : UInt8)] ++ List.replicate ((119 - msg.length % 64) % 64) (0 : UInt8) ++
    (List.range 8).map (fun i => UInt8.ofNat ((bits >>> (8 * (7 - i))) % 256))

/-- The words of 32 bits of a block, big-endian. -/
def sha256Words : Nat → Bytes → List Nat
  | 0, _ => []
  | n + 1, b0 :: b1 :: b2 :: b3 :: rest =>
    (b0.toNat * 2 ^ 24 + b1.toNat * 2 ^ 16 + b2.toNat * 2 ^ 8 + b3.toNat) ::
      sha256Words n rest
  | _ + 1, _ => []

/-- Message schedule: the sixteen words of the block extended to sixty-four. -/
def sha256Schedule : Nat → List Nat → List Nat
  | 0, w => w
  | n + 1, w =>
    let t := w.length
    let w2 := w.getD (t - 2) 0
    let w7 := w.getD (t - 7) 0
    let w15 := w.getD (t - 15) 0
    let w16 := w.getD (t - 16) 0
    let s0 := rotr32 w15 7 ^^^ rotr32 w15 18 ^^^ (w15 >>> 3)
    let s1 := rotr32 w2 17 ^^^ rotr32 w2 19 ^^^ (w2 >>> 10)
    sha256Schedule n (w ++ [(s1 + w7 + s0 + w16) % 2 ^ 32])

/-- One round of the compression function, for a round constant and a schedule word. -/
def sha256Round (s : Sha256State) (kw : Nat × Nat) : Sha256State :=
  let S1 := rotr32 s.e 6 ^^^ rotr32 s.e 11 ^^^ rotr32 s.e 25
  let ch := (s.e &&& s.f) ^^^ ((s.e ^^^ (2 ^ 32 - 1)) &&& s.g)
  let t1 := (s.h + S1 + ch + kw.1 + kw.2) % 2 ^ 32
  let S0 := rotr32 s.a 2 ^^^ rotr32 s.a 13 ^^^ rotr32 s.a 22
  let maj := (s.a &&& s.b) ^^^ (s.a &&& s.c) ^^^ (s.b &&& s.c)
  let t2 := (S0 + maj) % 2 ^ 32
  ⟨(t1 + t2) % 2 ^ 32, s.a, s.b, s.c, (s.d + t1) % 2 ^ 32, s.e, s.f, s.g⟩

/-- Compression of one block of 64 bytes into the chaining value. -/
def sha256Block (s : Sha256State) (block : Bytes) : Sha256State :=
  let w := sha256Schedule 48 (sha256Words 16 block)
  let r := (sha256K.zip w).foldl sha256Round s
  ⟨(s.a + r.a) % 2 ^ 32, (s.b + r.b) % 2 ^ 32, (s.c + r.c) % 2 ^ 32, (s.d + r.d) % 2 ^ 32,
    (s.e + r.e) % 2 ^ 32, (s.f + r.f) % 2 ^ 32, (s.g + r.g) % 2 ^ 32, (s.h + r.h) % 2 ^ 32⟩

/-- Compression of the first n blocks of a padded message. -/
def sha256Blocks : Nat → Sha256State → Bytes → Sha256State
  | 0, s, _ => s
  | n + 1, s, m => sha256Blocks n (sha256Block s (m.take 64)) (m.drop 64)

/-- The four bytes of a word of 32 bits, big-endian. -/
def be32 (w : Nat) : Bytes :=
  [UInt8.ofNat (w >>> 24 % 256), UInt8.ofNat (w >>> 16 % 256), UInt8.ofNat (w >>> 8 % 256),
    UInt8.ofNat (w % 256)]

/-- SHA-256 of a message (FIPS 180-4), the digest that crypto/sha256 computes. -/
def sha256 (msg : Bytes) : Bytes :=
  let m := sha256Pad msg
  let s := sha256Blocks (m.length / 64) sha256Init m
  be32 s.a ++ be32 s.b ++ be32 s.c ++ be32 s.d ++ be32 s.e ++ be32 s.f ++ be32 s.g ++ be32 s.h

/-- A small instance of the library interface: a stream is the two identification bytes of
a gzip header followed by the content as it is. It is not the gzip format, only a codec with
the same interface, with which the statements made for every library are instantiated. -/
def plainLib : GzipLib where
  NewReader := fun z =>
    match z with
    | 0x1f :: 0x8b :: _ => none
    | _ => some "gzip: invalid header"
  ReadAll := fun z => (z.drop 2, none)
  Write := fun _ => none
  Close := fun _ => none
  Buffer := fun b => 0x1f :: 0x8b :: b

/-- A dashboard that declares nothing: every field holds the zero value of its Go type. -/
def zeroDashboard : GrafanaDashboard where
  Namespace := ""
  Name := ""
  Spec :=
    { Json := "", GzipJson := none, Url := "", Jsonnet := "", GrafanaCom := none,
      InstanceSelector := none, FolderTitle := "", Plugins := [], ContentCacheDuration := 0,
      ResyncPeriod := "", Datasources := [], AllowCrossNamespaceImport := none }
  Status :=
    { ContentCache := none, ContentTimestamp := ⟨0⟩, ContentUrl := "", Hash := "",
      NoMatchingInstances := false, LastResync := ⟨0⟩ }

/-- The zero dashboard with an allocated GzipJson of length zero, as decoding the JSON
document with "gzipJson": "" leaves it. -/
def emptyGzipDashboard : GrafanaDashboard :=
  { zeroDashboard with Spec := { zeroDashboard.Spec with GzipJson := some [] } }

/-- The zero dashboard with a URL and a grafana.com reference. -/
def urlAndCatalogDashboard : GrafanaDashboard :=
  { zeroDashboard with
    Spec := { zeroDashboard.Spec with
      Url := "http://x/d.json", GrafanaCom := some { Id := 1860, Revision := none } } }

/-- The zero dashboard with a resync period that is no duration. -/
def badResyncDashboard : GrafanaDashboard :=
  { zeroDashboard with Spec := { zeroDashboard.Spec with ResyncPeriod := "soon" } }

/-- The zero dashboard with a resync period of one hour. -/
def hourlyDashboard : GrafanaDashboard :=
  { zeroDashboard with Spec := { zeroDashboard.Spec with ResyncPeriod := "1h" } }

/-- A dashboard named in a namespace, everything else as in the zero dashboard. -/
def namedDashboard (namespace_ : String) (name : String) (folder : String) : GrafanaDashboard :=
  { zeroDashboard with
    Namespace := namespace_, Name := name,
    Spec := { zeroDashboard.Spec with FolderTitle := folder } }

/-- A list in which two items carry the same namespace and name. -/
def sampleList : GrafanaDashboardList :=
  { Items := [namedDashboard "ops" "cpu" "a", namedDashboard "dev" "mem" "b",
      namedDashboard "dev" "mem" "c"] }

/-! ## Theorems: cache validator -/

/-- The three tests of getContentCache, read off its body. -/
theorem getContentCache_cases (lib : GzipLib) (now : Time) (st : GrafanaDashboardStatus)
    (u : String) (d : Duration) :
    st.getContentCache lib now u d =
      (if st.ContentUrl = u ∧ (d ≤ 0 ∨ now.ns < st.ContentTimestamp.ns + d) ∧
          (Gunzip lib st.ContentCache).2 = none
        then (Gunzip lib st.ContentCache).1 else some []) := by
  have hexp : (decide (d ≤ 0) || (st.ContentTimestamp.Add d).After now) = true ↔
      (d ≤ 0 ∨ now.ns < st.ContentTimestamp.ns + d) := by
    simp [Time.After, Time.Add]
  unfold GrafanaDashboardStatus.getContentCache
  by_cases hu : st.ContentUrl = u
  · by_cases ht : d ≤ 0 ∨ now.ns < st.ContentTimestamp.ns + d
    · have hb := hexp.mpr ht
      rcases hg : Gunzip lib st.ContentCache with ⟨cache, _ | e⟩
      · simp only [hu, ne_eq, not_true_eq_false, if_false, hb, Bool.not_true, ht,
          and_self, if_true, Bool.false_eq_true]
      · simp only [hu, ne_eq, not_true_eq_false, if_false, hb, Bool.not_true, ht,
          Bool.false_eq_true, true_and, reduceCtorEq, and_false]
    · have hb : (decide (d ≤ 0) || (st.ContentTimestamp.Add d).After now) = false := by
        rw [← Bool.not_eq_true, hexp]; exact ht
      simp only [hu, ne_eq, not_true_eq_false, if_false, hb, Bool.not_false, if_true, ht,
        false_and, and_false]
  · simp [hu]

/-- C1: getContentCache returns the decompressed bytes of Status.ContentCache when the stored
URL equals the requested one, the TTL is non-positive or ContentTimestamp + TTL is strictly
after the current instant, and Gunzip succeeds; in every other case it returns the empty byte
sequence. GetContentCache is this function at Spec.Url and Spec.ContentCacheDuration. -/
theorem getContentCache_eq (lib : GzipLib) (now : Time) (st : GrafanaDashboardStatus)
    (u : String) (d : Duration) (dash : GrafanaDashboard) :
    st.getContentCache lib now u d =
        (if st.ContentUrl = u ∧ (d ≤ 0 ∨ now.ns < st.ContentTimestamp.ns + d) ∧
            (Gunzip lib st.ContentCache).2 = none
          then (Gunzip lib st.ContentCache).1 else some [])
      ∧ dash.GetContentCache lib now =
          dash.Status.getContentCache lib now dash.Spec.Url dash.Spec.ContentCacheDuration :=
  ⟨getContentCache_cases lib now st u d, rfl⟩

/-- C2: the cache is origin-exact: for a requested URL different from Status.ContentUrl,
getContentCache returns the empty byte sequence for every TTL, every current instant, every
stored timestamp and every stored payload, valid gzip or not. -/
theorem getContentCache_other_url (lib : GzipLib) (now : Time) (st : GrafanaDashboardStatus)
    (u : String) (d : Duration) (hu : u ≠ st.ContentUrl) :
    st.getContentCache lib now u d = some [] := by
  rw [getContentCache_cases]
  have hne : ¬ st.ContentUrl = u := fun h => hu h.symm
  simp [hne]

/-- Witness of C2: a cache stored under "http://a", not expired and well formed, is rejected
for "http://b" and for the empty URL. -/
theorem getContentCache_other_url_witness :
    ("http://b" ≠ "http://a" ∧
      (GrafanaDashboardStatus.mk (some [0x1f, 0x8b, 7]) ⟨100⟩ "http://a" "" false ⟨0⟩).getContentCache
        plainLib ⟨101⟩ "http://b" (10 * Minute) = some []) ∧
    ("" ≠ "http://a" ∧
      (GrafanaDashboardStatus.mk (some [0x1f, 0x8b, 7]) ⟨100⟩ "http://a" "" false ⟨0⟩).getContentCache
        plainLib ⟨101⟩ "" (10 * Minute) = some []) :=
  ⟨⟨by decide, getContentCache_other_url plainLib ⟨101⟩ _ "http://b" (10 * Minute) (by decide)⟩,
   ⟨by decide, getContentCache_other_url plainLib ⟨101⟩ _ "" (10 * Minute) (by decide)⟩⟩

/-- C3: TTL boundary. With the requested URL equal to the stored one and the stored bytes
decompressing to c: for a TTL D > 0 and ContentTimestamp T the call returns c at the instant
T + D - 1ns and the empty byte sequence at T + D + 1ns and at T + D; for D <= 0 it returns c
at every instant. For D > 0 and any instant, it returns c strictly before T + D and the empty
byte sequence from T + D on. -/
theorem getContentCache_ttl_boundary (lib : GzipLib) (st : GrafanaDashboardStatus) (u : String)
    (c : ByteSlice) (hu : u = st.ContentUrl) (hc : Gunzip lib st.ContentCache = (c, none)) :
    (∀ D : Duration, 0 < D →
        st.getContentCache lib ⟨st.ContentTimestamp.ns + D - 1⟩ u D = c ∧
        st.getContentCache lib ⟨st.ContentTimestamp.ns + D + 1⟩ u D = some [] ∧
        st.getContentCache lib ⟨st.ContentTimestamp.ns + D⟩ u D = some []) ∧
    (∀ (D : Duration) (now : Time), D ≤ 0 → st.getContentCache lib now u D = c) ∧
    (∀ (D : Duration) (now : Time), 0 < D →
        st.getContentCache lib now u D =
          if now.ns < st.ContentTimestamp.ns + D then c else some []) := by
  subst hu
  refine ⟨fun D hD => ⟨?_, ?_, ?_⟩, fun D now hD => ?_, fun D now hD => ?_⟩
  · rw [getContentCache_cases, hc]
    have h : st.ContentTimestamp.ns + D - 1 < st.ContentTimestamp.ns + D := by omega
    simp [h]
  · rw [getContentCache_cases, hc]
    have h1 : ¬ D ≤ 0 := not_le.mpr hD
    have h2 : ¬ st.ContentTimestamp.ns + D + 1 < st.ContentTimestamp.ns + D := by omega
    simp [h1, h2]
  · rw [getContentCache_cases, hc]
    have h1 : ¬ D ≤ 0 := not_le.mpr hD
    simp [h1]
  · rw [getContentCache_cases, hc]
    simp [hD]
  · rw [getContentCache_cases, hc]
    have h1 : ¬ D ≤ 0 := not_le.mpr hD
    simp [h1]

/-- Witness of C3: a cache taken at instant 1000 whose payload decompresses to the bytes
1, 2, 3. -/
theorem getContentCache_ttl_boundary_witness :
    (∀ D : Duration, 0 < D →
        (GrafanaDashboardStatus.mk (some [0x1f, 0x8b, 1, 2, 3]) ⟨1000⟩ "http://x/d.json" "" false
            ⟨0⟩).getContentCache plainLib ⟨1000 + D - 1⟩ "http://x/d.json" D = some [1, 2, 3] ∧
        (GrafanaDashboardStatus.mk (some [0x1f, 0x8b, 1, 2, 3]) ⟨1000⟩ "http://x/d.json" "" false
            ⟨0⟩).getContentCache plainLib ⟨1000 + D + 1⟩ "http://x/d.json" D = some [] ∧
        (GrafanaDashboardStatus.mk (some [0x1f, 0x8b, 1, 2, 3]) ⟨1000⟩ "http://x/d.json" "" false
            ⟨0⟩).getContentCache plainLib ⟨1000 + D⟩ "http://x/d.json" D = some []) ∧
    (∀ (D : Duration) (now : Time), D ≤ 0 →
        (GrafanaDashboardStatus.mk (some [0x1f, 0x8b, 1, 2, 3]) ⟨1000⟩ "http://x/d.json" "" false
            ⟨0⟩).getContentCache plainLib now "http://x/d.json" D = some [1, 2, 3]) ∧
    (∀ (D : Duration) (now : Time), 0 < D →
        (GrafanaDashboardStatus.mk (some [0x1f, 0x8b, 1, 2, 3]) ⟨1000⟩ "http://x/d.json" "" false
            ⟨0⟩).getContentCache plainLib now "http://x/d.json" D =
          if now.ns < 1000 + D then some [1, 2, 3] else some []) :=
  getContentCache_ttl_boundary plainLib
    (GrafanaDashboardStatus.mk (some [0x1f, 0x8b, 1, 2, 3]) ⟨1000⟩ "http://x/d.json" "" false ⟨0⟩)
    "http://x/d.json" (some [1, 2, 3]) rfl (by decide)

/-- C4: corruption resilience. When Gunzip returns an error for the stored bytes,
getContentCache returns the empty byte sequence for every URL, TTL and current instant; the
function is total and its only result is a byte slice, so the error reaches no caller. -/
theorem getContentCache_corrupt (lib : GzipLib) (st : GrafanaDashboardStatus) (e : GoError)
    (he : (Gunzip lib st.ContentCache).2 = some e) (now : Time) (u : String) (d : Duration) :
    st.getContentCache lib now u d = some [] := by
  rw [getContentCache_cases]
  simp [he]

/-- Witness of C4: the stored bytes 1, 2, 3 do not start with a gzip header. -/
theorem getContentCache_corrupt_witness :
    (Gunzip plainLib (some [1, 2, 3])).2 = some "gzip: invalid header" ∧
    ∀ (now : Time) (u : String) (d : Duration),
      (GrafanaDashboardStatus.mk (some [1, 2, 3]) ⟨1000⟩ "http://x/d.json" "" false
        ⟨0⟩).getContentCache plainLib now u d = some [] :=
  ⟨by decide, getContentCache_corrupt plainLib
    (GrafanaDashboardStatus.mk (some [1, 2, 3]) ⟨1000⟩ "http://x/d.json" "" false ⟨0⟩)
    "gzip: invalid header" (by decide)⟩

/-! ## Theorems: source resolver -/

/-- The list built by GetSourceTypes, as the concatenation of one optional entry per field. -/
theorem GetSourceTypes_eq (d : GrafanaDashboard) :
    d.GetSourceTypes =
      (if d.Spec.Json ≠ "" then ["json"] else []) ++
      (if d.Spec.GzipJson ≠ none then ["gzipJson"] else []) ++
      (if d.Spec.Url ≠ "" then ["url"] else []) ++
      (if d.Spec.Jsonnet ≠ "" then ["jsonnet"] else []) ++
      (if d.Spec.GrafanaCom ≠ none then ["grafana"] else []) := by
  unfold GrafanaDashboard.GetSourceTypes DashboardSourceTypeRawJson DashboardSourceTypeGzipJson
    DashboardSourceTypeUrl DashboardSourceTypeJsonnet DashboardSourceTypeGrafanaCom
  by_cases h1 : d.Spec.Json = "" <;> by_cases h2 : d.Spec.GzipJson = none <;>
    by_cases h3 : d.Spec.Url = "" <;> by_cases h4 : d.Spec.Jsonnet = "" <;>
    by_cases h5 : d.Spec.GrafanaCom = none <;> simp [h1, h2, h3, h4, h5]

/-- Counterexample to C7: in the dashboard whose only source field is an allocated GzipJson
of length zero no source field holds content (empty strings, a byte sequence without bytes, a
nil reference), and the result is the list with "gzipJson", not the empty list. -/
theorem GetSourceTypes_emptyGzip_not_empty :
    emptyGzipDashboard.Spec.Json = "" ∧
    (ByteSlice.content emptyGzipDashboard.Spec.GzipJson).length = 0 ∧
    emptyGzipDashboard.Spec.Url = "" ∧
    emptyGzipDashboard.Spec.Jsonnet = "" ∧
    emptyGzipDashboard.Spec.GrafanaCom = none ∧
    emptyGzipDashboard.GetSourceTypes = ["gzipJson"] ∧
    ¬ (∀ d : GrafanaDashboard,
        d.Spec.Json = "" ∧ (ByteSlice.content d.Spec.GzipJson).length = 0 ∧
          d.Spec.Url = "" ∧ d.Spec.Jsonnet = "" ∧ d.Spec.GrafanaCom = none →
        d.GetSourceTypes = []) := by
  have hlist : emptyGzipDashboard.GetSourceTypes = ["gzipJson"] := by decide
  refine ⟨rfl, rfl, rfl, rfl, rfl, hlist, fun hall => ?_⟩
  have hnil := hall emptyGzipDashboard ⟨rfl, rfl, rfl, rfl, rfl⟩
  rw [hlist] at hnil
  exact absurd hnil (by decide)

/-- C7, amended: GetSourceTypes contains "json" iff Spec.Json is non-empty, "url" iff
Spec.Url is non-empty, "jsonnet" iff Spec.Jsonnet is non-empty and "grafana" iff
Spec.GrafanaCom is non-nil; no kind appears twice, every entry is one of the five source
kinds, and the result is the empty list exactly when Json, Url and Jsonnet are empty and
GzipJson and GrafanaCom are nil. -/
theorem GetSourceTypes_contents (d : GrafanaDashboard) :
    ("json" ∈ d.GetSourceTypes ↔ d.Spec.Json ≠ "") ∧
    ("url" ∈ d.GetSourceTypes ↔ d.Spec.Url ≠ "") ∧
    ("jsonnet" ∈ d.GetSourceTypes ↔ d.Spec.Jsonnet ≠ "") ∧
    ("grafana" ∈ d.GetSourceTypes ↔ d.Spec.GrafanaCom ≠ none) ∧
    d.GetSourceTypes.Nodup ∧
    (∀ k ∈ d.GetSourceTypes, k ∈ ["json", "gzipJson", "url", "jsonnet", "grafana"]) ∧
    (d.GetSourceTypes = [] ↔
      (d.Spec.Json = "" ∧ d.Spec.GzipJson = none ∧ d.Spec.Url = "" ∧ d.Spec.Jsonnet = "" ∧
        d.Spec.GrafanaCom = none)) := by
  rw [GetSourceTypes_eq]
  by_cases h1 : d.Spec.Json = "" <;> by_cases h2 : d.Spec.GzipJson = none <;>
    by_cases h3 : d.Spec.Url = "" <;> by_cases h4 : d.Spec.Jsonnet = "" <;>
    by_cases h5 : d.Spec.GrafanaCom = none <;> simp [h1, h2, h3, h4, h5]

/-- Witness of C7, amended: the zero dashboard lists nothing, and the dashboard with a URL
and a grafana.com reference lists these two kinds and not json. -/
theorem GetSourceTypes_contents_witness :
    zeroDashboard.GetSourceTypes = [] ∧
    "url" ∈ urlAndCatalogDashboard.GetSourceTypes ∧
    "grafana" ∈ urlAndCatalogDashboard.GetSourceTypes ∧
    "json" ∉ urlAndCatalogDashboard.GetSourceTypes :=
  ⟨(GetSourceTypes_contents zeroDashboard).2.2.2.2.2.2.mpr ⟨rfl, rfl, rfl, rfl, rfl⟩,
   (GetSourceTypes_contents urlAndCatalogDashboard).2.1.mpr (by decide),
   (GetSourceTypes_contents urlAndCatalogDashboard).2.2.2.1.mpr (by decide),
   fun hm => (GetSourceTypes_contents urlAndCatalogDashboard).1.mp hm rfl⟩

/-- Counterexample to C8: an allocated GzipJson of length zero is listed as "gzipJson". -/
theorem GetSourceTypes_emptyGzip_listed :
    emptyGzipDashboard.Spec.GzipJson = some [] ∧
    (ByteSlice.content emptyGzipDashboard.Spec.GzipJson).length = 0 ∧
    "gzipJson" ∈ emptyGzipDashboard.GetSourceTypes ∧
    ¬ (∀ d : GrafanaDashboard, (ByteSlice.content d.Spec.GzipJson).length = 0 →
        "gzipJson" ∉ d.GetSourceTypes) := by
  have hmem : "gzipJson" ∈ emptyGzipDashboard.GetSourceTypes := by decide
  exact ⟨rfl, rfl, hmem, fun h => h emptyGzipDashboard rfl hmem⟩

/-- C8, amended: the test on GzipJson is a test for nil. GetSourceTypes contains "gzipJson"
iff Spec.GzipJson is not the nil slice; so a nil GzipJson is not listed, and a GzipJson with at
least one byte is listed (as is an allocated one of length zero). -/
theorem GetSourceTypes_gzipJson (d : GrafanaDashboard) :
    ("gzipJson" ∈ d.GetSourceTypes ↔ d.Spec.GzipJson ≠ none) ∧
    (d.Spec.GzipJson = none → "gzipJson" ∉ d.GetSourceTypes) ∧
    (0 < (ByteSlice.content d.Spec.GzipJson).length → "gzipJson" ∈ d.GetSourceTypes) := by
  have hiff : "gzipJson" ∈ d.GetSourceTypes ↔ d.Spec.GzipJson ≠ none := by
    rw [GetSourceTypes_eq]
    by_cases h1 : d.Spec.Json = "" <;> by_cases h2 : d.Spec.GzipJson = none <;>
      by_cases h3 : d.Spec.Url = "" <;> by_cases h4 : d.Spec.Jsonnet = "" <;>
      by_cases h5 : d.Spec.GrafanaCom = none <;> simp [h1, h2, h3, h4, h5]
  refine ⟨hiff, fun h => ?_, fun h => ?_⟩
  · rw [hiff]; exact fun hn => hn h
  · rw [hiff]
    intro hn
    rw [hn] at h
    exact absurd h (by decide)

/-- Witness of C8, amended: the nil slice of the zero dashboard, and a slice of three bytes. -/
theorem GetSourceTypes_gzipJson_witness :
    (zeroDashboard.Spec.GzipJson = none ∧ "gzipJson" ∉ zeroDashboard.GetSourceTypes) ∧
    (0 < (ByteSlice.content (some [0x1f, 0x8b, 8])).length ∧
      "gzipJson" ∈ GrafanaDashboard.GetSourceTypes
        { zeroDashboard with Spec := { zeroDashboard.Spec with GzipJson := some [0x1f, 0x8b, 8] } }) :=
  ⟨⟨rfl, (GetSourceTypes_gzipJson zeroDashboard).2.1 rfl⟩,
   ⟨by decide, (GetSourceTypes_gzipJson
      { zeroDashboard with Spec := { zeroDashboard.Spec with GzipJson := some [0x1f, 0x8b, 8] } }).2.2
      (by decide)⟩⟩

/-- C9: the list returned by GetSourceTypes is a subsequence of the fixed order json,
gzipJson, url, jsonnet, grafana; a dashboard in which only Url and GrafanaCom are set yields
exactly url followed by grafana, and not grafana followed by url. Whatever else is set, a
dashboard with a URL and a grafana.com reference lists url before grafana and never after. -/
theorem GetSourceTypes_order (d : GrafanaDashboard) :
    List.Sublist d.GetSourceTypes ["json", "gzipJson", "url", "jsonnet", "grafana"] ∧
    (d.Spec.Json = "" ∧ d.Spec.GzipJson = none ∧ d.Spec.Url ≠ "" ∧ d.Spec.Jsonnet = "" ∧
        d.Spec.GrafanaCom ≠ none →
      d.GetSourceTypes = ["url", "grafana"] ∧ d.GetSourceTypes ≠ ["grafana", "url"]) ∧
    (d.Spec.Url ≠ "" ∧ d.Spec.GrafanaCom ≠ none →
      List.Sublist ["url", "grafana"] d.GetSourceTypes ∧
      ¬ List.Sublist ["grafana", "url"] d.GetSourceTypes) := by
  rw [GetSourceTypes_eq]
  refine ⟨?_, ?_, ?_⟩
  · by_cases h1 : d.Spec.Json = "" <;> by_cases h2 : d.Spec.GzipJson = none <;>
      by_cases h3 : d.Spec.Url = "" <;> by_cases h4 : d.Spec.Jsonnet = "" <;>
      by_cases h5 : d.Spec.GrafanaCom = none <;>
      simp only [h1, h2, h3, h4, h5, ne_eq, not_true_eq_false, not_false_eq_true, if_true,
        if_false, List.nil_append, List.append_nil, List.singleton_append, List.cons_append] <;>
      decide
  · rintro ⟨h1, h2, h3, h4, h5⟩
    simp [h1, h2, h3, h4, h5]
  · rintro ⟨h3, h5⟩
    by_cases h1 : d.Spec.Json = "" <;> by_cases h2 : d.Spec.GzipJson = none <;>
      by_cases h4 : d.Spec.Jsonnet = "" <;>
      simp only [h1, h2, h3, h4, h5, ne_eq, not_true_eq_false, not_false_eq_true, if_true,
        if_false, List.nil_append, List.append_nil, List.singleton_append, List.cons_append] <;>
      decide

/-- Witness of C9: a dashboard with a URL and a grafana.com reference and nothing else. -/
theorem GetSourceTypes_order_witness :
    List.Sublist urlAndCatalogDashboard.GetSourceTypes
      ["json", "gzipJson", "url", "jsonnet", "grafana"] ∧
    (urlAndCatalogDashboard.GetSourceTypes = ["url", "grafana"] ∧
      urlAndCatalogDashboard.GetSourceTypes ≠ ["grafana", "url"]) ∧
    (List.Sublist ["url", "grafana"] urlAndCatalogDashboard.GetSourceTypes ∧
      ¬ List.Sublist ["grafana", "url"] urlAndCatalogDashboard.GetSourceTypes) :=
  ⟨(GetSourceTypes_order urlAndCatalogDashboard).1,
   (GetSourceTypes_order urlAndCatalogDashboard).2.1
     ⟨rfl, rfl, by decide, rfl, by decide⟩,
   (GetSourceTypes_order urlAndCatalogDashboard).2.2 ⟨by decide, by decide⟩⟩

/-! ## Theorems: resync clock -/

/-- A stored period that parses is returned by the outermost call, which leaves the receiver
as it was. -/
theorem GetResyncPeriod_parsed (parse : String → Option Duration) (fuel : Nat)
    (d : GrafanaDashboard) (p : Duration) (hne : d.Spec.ResyncPeriod ≠ "")
    (hp : parse d.Spec.ResyncPeriod = some p) :
    d.GetResyncPeriod parse (fuel + 1) = some (p, d) := by
  simp [GrafanaDashboard.GetResyncPeriod, hne, hp]

/-- A stored period that is empty or does not parse is replaced by the default, and the
call the method makes to itself returns the default period. -/
theorem GetResyncPeriod_fallback (parse : String → Option Duration) (fuel : Nat)
    (d : GrafanaDashboard) (p0 : Duration) (hp0 : parse DefaultResyncPeriod = some p0)
    (h : d.Spec.ResyncPeriod = "" ∨ parse d.Spec.ResyncPeriod = none) :
    d.GetResyncPeriod parse (fuel + 2) =
      some (p0, { d with Spec := { d.Spec with ResyncPeriod := DefaultResyncPeriod } }) := by
  have hdef : DefaultResyncPeriod ≠ "" := by decide
  have hrec : GrafanaDashboard.GetResyncPeriod parse (fuel + 1)
      { d with Spec := { d.Spec with ResyncPeriod := DefaultResyncPeriod } } =
      some (p0, { d with Spec := { d.Spec with ResyncPeriod := DefaultResyncPeriod } }) :=
    GetResyncPeriod_parsed parse fuel _ p0 hdef hp0
  by_cases hempty : d.Spec.ResyncPeriod = ""
  · rw [GrafanaDashboard.GetResyncPeriod]
    simp only [hempty, if_true]
    exact hrec
  · rcases h with h | h
    · exact absurd h hempty
    · rw [GrafanaDashboard.GetResyncPeriod]
      simp only [hempty, if_false, h]
      exact hrec

/-- With a default that parses, two levels of calls are enough for GetResyncPeriod to return,
and the receiver it leaves behind has the status it had. -/
theorem GetResyncPeriod_returns (parse : String → Option Duration) (p0 : Duration)
    (hp0 : parse DefaultResyncPeriod = some p0) (fuel : Nat) (hfuel : 2 ≤ fuel)
    (d : GrafanaDashboard) :
    ∃ P d1, d.GetResyncPeriod parse fuel = some (P, d1) ∧ d1.Status = d.Status := by
  obtain ⟨n, rfl⟩ : ∃ n, fuel = n + 2 := ⟨fuel - 2, by omega⟩
  by_cases h : d.Spec.ResyncPeriod = "" ∨ parse d.Spec.ResyncPeriod = none
  · exact ⟨p0, _, GetResyncPeriod_fallback parse n d p0 hp0 h, rfl⟩
  · have hne : d.Spec.ResyncPeriod ≠ "" := fun e => h (Or.inl e)
    cases hp : parse d.Spec.ResyncPeriod with
    | none => exact absurd (Or.inr hp) h
    | some p => exact ⟨p, d, GetResyncPeriod_parsed parse (n + 1) d p hne hp, rfl⟩

/-- C10: with P the period GetResyncPeriod returns and T the stored LastResync,
ResyncPeriodHasElapsed returns true iff the current instant is strictly after T + P; it is
false at T + P and true at T + P + 1ns. The calls return as soon as the default period string
parses and two levels of calls are allowed. -/
theorem ResyncPeriodHasElapsed_iff (parse : String → Option Duration) (p0 : Duration)
    (hparse : parse DefaultResyncPeriod = some p0) (fuel : Nat) (hfuel : 2 ≤ fuel)
    (d : GrafanaDashboard) :
    ∃ P d1, d.GetResyncPeriod parse fuel = some (P, d1) ∧
      (∀ now : Time, ∃ b, d.ResyncPeriodHasElapsed parse fuel now = some (b, d1) ∧
        (b = true ↔ d.Status.LastResync.ns + P < now.ns)) ∧
      d.ResyncPeriodHasElapsed parse fuel ⟨d.Status.LastResync.ns + P⟩ = some (false, d1) ∧
      d.ResyncPeriodHasElapsed parse fuel ⟨d.Status.LastResync.ns + P + 1⟩ =
        some (true, d1) := by
  obtain ⟨P, d1, hget, hst⟩ := GetResyncPeriod_returns parse p0 hparse fuel hfuel d
  refine ⟨P, d1, hget, fun now => ⟨decide (d.Status.LastResync.ns + P < now.ns), ?_, ?_⟩, ?_, ?_⟩
  · simp [GrafanaDashboard.ResyncPeriodHasElapsed, hget, hst, Time.After, Time.Add]
  · simp
  · simp [GrafanaDashboard.ResyncPeriodHasElapsed, hget, hst, Time.After, Time.Add]
  · simp [GrafanaDashboard.ResyncPeriodHasElapsed, hget, hst, Time.After, Time.Add]

/-- Witness of C10: the zero dashboard, whose empty period string falls back to "5m", with
the duration parser of the Go library. -/
theorem ResyncPeriodHasElapsed_iff_witness :
    ParseDuration fracFloor DefaultResyncPeriod = some (5 * Minute) ∧ 2 ≤ 2 ∧
    ∃ P d1, zeroDashboard.GetResyncPeriod (ParseDuration fracFloor) 2 = some (P, d1) ∧
      (∀ now : Time, ∃ b,
        zeroDashboard.ResyncPeriodHasElapsed (ParseDuration fracFloor) 2 now = some (b, d1) ∧
        (b = true ↔ zeroDashboard.Status.LastResync.ns + P < now.ns)) ∧
      zeroDashboard.ResyncPeriodHasElapsed (ParseDuration fracFloor) 2
        ⟨zeroDashboard.Status.LastResync.ns + P⟩ = some (false, d1) ∧
      zeroDashboard.ResyncPeriodHasElapsed (ParseDuration fracFloor) 2
        ⟨zeroDashboard.Status.LastResync.ns + P + 1⟩ = some (true, d1) :=
  ⟨by decide, le_refl 2,
   ResyncPeriodHasElapsed_iff (ParseDuration fracFloor) (5 * Minute) (by decide) 2 (le_refl 2)
     zeroDashboard⟩

/-- The receiver GetResyncPeriod leaves behind differs from the one it was called on in the
stored period string at most. -/
theorem GetResyncPeriod_frame (parse : String → Option Duration) :
    ∀ (fuel : Nat) (d : GrafanaDashboard) (P : Duration) (d1 : GrafanaDashboard),
      d.GetResyncPeriod parse fuel = some (P, d1) →
      d1 = { d with Spec := { d.Spec with ResyncPeriod := d1.Spec.ResyncPeriod } } := by
  intro fuel
  induction fuel with
  | zero => intro d P d1 h; simp [GrafanaDashboard.GetResyncPeriod] at h
  | succ n ih =>
    intro d P d1 h
    rw [GrafanaDashboard.GetResyncPeriod] at h
    by_cases hempty : d.Spec.ResyncPeriod = ""
    · simp only [hempty, if_true] at h
      have := ih _ P d1 h
      rw [this]
    · simp only [hempty, if_false] at h
      cases hp : parse d.Spec.ResyncPeriod with
      | none =>
        rw [hp] at h
        have := ih _ P d1 h
        rw [this]
      | some p =>
        rw [hp] at h
        simp only [Option.some.injEq, Prod.mk.injEq] at h
        rw [← h.2]

/-- C11: self-healing accessor. When the stored period is empty or does not parse,
GetResyncPeriod returns 5 minutes and leaves the literal "5m" stored; when it is a non-empty
string that parses to a duration, GetResyncPeriod returns that duration and leaves the
dashboard as it was. In both cases a duration is returned: the result holds no error. (The
empty string is no duration for time.ParseDuration, so the two cases cover every dashboard.) -/
theorem GetResyncPeriod_self_healing (parse : String → Option Duration)
    (hparse : parse DefaultResyncPeriod = some (5 * Minute)) (fuel : Nat) (hfuel : 2 ≤ fuel)
    (d : GrafanaDashboard) :
    (d.Spec.ResyncPeriod = "" ∨ parse d.Spec.ResyncPeriod = none →
      d.GetResyncPeriod parse fuel =
        some (5 * Minute, { d with Spec := { d.Spec with ResyncPeriod := "5m" } })) ∧
    (∀ dur : Duration, d.Spec.ResyncPeriod ≠ "" → parse d.Spec.ResyncPeriod = some dur →
      d.GetResyncPeriod parse fuel = some (dur, d)) ∧
    (∃ P d1, d.GetResyncPeriod parse fuel = some (P, d1)) := by
  obtain ⟨n, rfl⟩ : ∃ n, fuel = n + 2 := ⟨fuel - 2, by omega⟩
  refine ⟨fun h => GetResyncPeriod_fallback parse n d _ hparse h,
    fun dur hne hp => GetResyncPeriod_parsed parse (n + 1) d dur hne hp, ?_⟩
  obtain ⟨P, d1, h, _⟩ := GetResyncPeriod_returns parse _ hparse (n + 2) (by omega) d
  exact ⟨P, d1, h⟩

/-- Witness of C11: an empty period, a period that is no duration, and a period of one
hour, with the duration parser of the Go library. -/
theorem GetResyncPeriod_self_healing_witness :
    ParseDuration fracFloor DefaultResyncPeriod = some (5 * Minute) ∧
    zeroDashboard.GetResyncPeriod (ParseDuration fracFloor) 2 =
      some (5 * Minute,
        { zeroDashboard with Spec := { zeroDashboard.Spec with ResyncPeriod := "5m" } }) ∧
    badResyncDashboard.GetResyncPeriod (ParseDuration fracFloor) 2 =
      some (5 * Minute,
        { badResyncDashboard with
          Spec := { badResyncDashboard.Spec with ResyncPeriod := "5m" } }) ∧
    hourlyDashboard.GetResyncPeriod (ParseDuration fracFloor) 2 = some (Hour, hourlyDashboard) :=
  ⟨by decide,
   (GetResyncPeriod_self_healing (ParseDuration fracFloor) (by decide) 2 (le_refl 2)
      zeroDashboard).1 (Or.inl rfl),
   (GetResyncPeriod_self_healing (ParseDuration fracFloor) (by decide) 2 (le_refl 2)
      badResyncDashboard).1 (Or.inr (by decide)),
   (GetResyncPeriod_self_healing (ParseDuration fracFloor) (by decide) 2 (le_refl 2)
      hourlyDashboard).2.1 Hour (by decide) (by decide)⟩

/-- C12, evaluated: for the dashboard with no resync period set GetResyncPeriod returns five
minutes, which is not the 24 hours that the comment on the field announces. -/
theorem GetResyncPeriod_unset_is_five_minutes :
    zeroDashboard.Spec.ResyncPeriod = "" ∧
    zeroDashboard.GetResyncPeriod (ParseDuration fracFloor) 2 =
      some (5 * Minute,
        { zeroDashboard with Spec := { zeroDashboard.Spec with ResyncPeriod := "5m" } }) ∧
    (5 * Minute : Duration) ≠ 24 * Hour := by
  refine ⟨rfl, ?_, by decide⟩
  decide

/-- With one level of calls allowed, GetResyncPeriod returns exactly when the stored period
is a non-empty string that parses: that is when the method does not call itself. -/
theorem GetResyncPeriod_depth_one (parse : String → Option Duration) (d : GrafanaDashboard) :
    d.GetResyncPeriod parse 1 = none ↔
      (d.Spec.ResyncPeriod = "" ∨ parse d.Spec.ResyncPeriod = none) := by
  rw [GrafanaDashboard.GetResyncPeriod]
  by_cases hempty : d.Spec.ResyncPeriod = ""
  · simp [hempty, GrafanaDashboard.GetResyncPeriod]
  · cases hp : parse d.Spec.ResyncPeriod with
    | none => simp [hempty, GrafanaDashboard.GetResyncPeriod]
    | some p => simp [hempty]

/-- C16: GetResyncPeriod terminates on every dashboard with at most one call to itself,
because the default "5m" is non-empty and parses. Two levels of calls (the outermost call and
one call of the method to itself) are enough for a result on every dashboard; allowing more
changes nothing; and the one call to itself is made exactly when the stored period is empty
or does not parse. -/
theorem GetResyncPeriod_one_level (parse : String → Option Duration) (p0 : Duration)
    (hparse : parse DefaultResyncPeriod = some p0) (d : GrafanaDashboard) :
    DefaultResyncPeriod ≠ "" ∧
    (∃ P d1, d.GetResyncPeriod parse 2 = some (P, d1)) ∧
    (∀ fuel : Nat, 2 ≤ fuel → d.GetResyncPeriod parse fuel = d.GetResyncPeriod parse 2) ∧
    (d.GetResyncPeriod parse 1 = none ↔
      (d.Spec.ResyncPeriod = "" ∨ parse d.Spec.ResyncPeriod = none)) := by
  refine ⟨by decide, ?_, ?_, GetResyncPeriod_depth_one parse d⟩
  · obtain ⟨P, d1, h, _⟩ := GetResyncPeriod_returns parse p0 hparse 2 (le_refl 2) d
    exact ⟨P, d1, h⟩
  · intro fuel hfuel
    obtain ⟨n, rfl⟩ : ∃ n, fuel = n + 2 := ⟨fuel - 2, by omega⟩
    by_cases h : d.Spec.ResyncPeriod = "" ∨ parse d.Spec.ResyncPeriod = none
    · rw [GetResyncPeriod_fallback parse n d p0 hparse h,
        GetResyncPeriod_fallback parse 0 d p0 hparse h]
    · have hne : d.Spec.ResyncPeriod ≠ "" := fun e => h (Or.inl e)
      cases hp : parse d.Spec.ResyncPeriod with
      | none => exact absurd (Or.inr hp) h
      | some p =>
        rw [GetResyncPeriod_parsed parse (n + 1) d p hne hp,
          GetResyncPeriod_parsed parse 1 d p hne hp]

/-- Witness of C16: the zero dashboard, whose empty period makes the method call itself
once, with the duration parser of the Go library. -/
theorem GetResyncPeriod_one_level_witness :
    ParseDuration fracFloor DefaultResyncPeriod = some (5 * Minute) ∧
    DefaultResyncPeriod ≠ "" ∧
    (∃ P d1, zeroDashboard.GetResyncPeriod (ParseDuration fracFloor) 2 = some (P, d1)) ∧
    (∀ fuel : Nat, 2 ≤ fuel →
      zeroDashboard.GetResyncPeriod (ParseDuration fracFloor) fuel =
        zeroDashboard.GetResyncPeriod (ParseDuration fracFloor) 2) ∧
    (zeroDashboard.GetResyncPeriod (ParseDuration fracFloor) 1 = none ↔
      (zeroDashboard.Spec.ResyncPeriod = "" ∨
        ParseDuration fracFloor zeroDashboard.Spec.ResyncPeriod = none)) :=
  ⟨by decide,
   GetResyncPeriod_one_level (ParseDuration fracFloor) (5 * Minute) (by decide) zeroDashboard⟩

/-- C17: invalid resync periods are never left stored. After one evaluation of
GetResyncPeriod, and after one evaluation of ResyncPeriodHasElapsed, the stored period is a
non-empty string that parses, to the very duration returned; a second call of GetResyncPeriod
returns the same duration and leaves the dashboard as the first call left it. -/
theorem GetResyncPeriod_idempotent (parse : String → Option Duration) (p0 : Duration)
    (hparse : parse DefaultResyncPeriod = some p0) (fuel : Nat) (hfuel : 2 ≤ fuel)
    (d : GrafanaDashboard) :
    ∃ P d1, d.GetResyncPeriod parse fuel = some (P, d1) ∧
      d1.Spec.ResyncPeriod ≠ "" ∧
      parse d1.Spec.ResyncPeriod = some P ∧
      d1.GetResyncPeriod parse fuel = some (P, d1) ∧
      (∀ now : Time, ∃ b, d.ResyncPeriodHasElapsed parse fuel now = some (b, d1)) := by
  obtain ⟨n, rfl⟩ : ∃ n, fuel = n + 2 := ⟨fuel - 2, by omega⟩
  have hdef : DefaultResyncPeriod ≠ "" := by decide
  by_cases h : d.Spec.ResyncPeriod = "" ∨ parse d.Spec.ResyncPeriod = none
  · have hget := GetResyncPeriod_fallback parse n d p0 hparse h
    refine ⟨p0, _, hget, hdef, hparse, GetResyncPeriod_parsed parse (n + 1) _ p0 hdef hparse,
      fun now => ?_⟩
    simp [GrafanaDashboard.ResyncPeriodHasElapsed, hget]
  · have hne : d.Spec.ResyncPeriod ≠ "" := fun e => h (Or.inl e)
    cases hp : parse d.Spec.ResyncPeriod with
    | none => exact absurd (Or.inr hp) h
    | some p =>
      have hget := GetResyncPeriod_parsed parse (n + 1) d p hne hp
      refine ⟨p, d, hget, hne, hp, hget, fun now => ?_⟩
      simp [GrafanaDashboard.ResyncPeriodHasElapsed, hget]

/-- Witness of C17: the dashboard whose stored period "soon" is no duration. -/
theorem GetResyncPeriod_idempotent_witness :
    ParseDuration fracFloor DefaultResyncPeriod = some (5 * Minute) ∧
    ∃ P d1, badResyncDashboard.GetResyncPeriod (ParseDuration fracFloor) 2 = some (P, d1) ∧
      d1.Spec.ResyncPeriod ≠ "" ∧
      ParseDuration fracFloor d1.Spec.ResyncPeriod = some P ∧
      d1.GetResyncPeriod (ParseDuration fracFloor) 2 = some (P, d1) ∧
      (∀ now : Time, ∃ b,
        badResyncDashboard.ResyncPeriodHasElapsed (ParseDuration fracFloor) 2 now =
          some (b, d1)) :=
  ⟨by decide,
   GetResyncPeriod_idempotent (ParseDuration fracFloor) (5 * Minute) (by decide) 2 (le_refl 2)
     badResyncDashboard⟩

/-! ## Theorems: fingerprint -/

theorem hexChars_length (bs : Bytes) : (hexChars bs).length = 2 * bs.length := by
  induction bs with
  | nil => rfl
  | cons b bs ih => simp only [hexChars, List.length_cons, ih]; omega

theorem hexDigit_mem : ∀ n, n < 16 → hexDigit n ∈ "0123456789abcdef".toList := by decide

theorem hexValue_hexDigit : ∀ n, n < 16 → hexValue (hexDigit n) = n := by decide

/-- The two characters written for the byte at position i. -/
theorem hexChars_pair : ∀ (bs : Bytes) (i : Nat) (x : UInt8), bs[i]? = some x →
    (hexChars bs)[2 * i]? = some (hexDigit (x.toNat / 16)) ∧
    (hexChars bs)[2 * i + 1]? = some (hexDigit (x.toNat % 16)) := by
  intro bs
  induction bs with
  | nil => intro i x h; simp at h
  | cons b bs ih =>
    intro i x h
    cases i with
    | zero =>
      simp only [List.getElem?_cons_zero, Option.some.injEq] at h
      subst h
      simp [hexChars]
    | succ j =>
      simp only [List.getElem?_cons_succ] at h
      have hj := ih j x h
      have e1 : 2 * (j + 1) = (2 * j + 1) + 1 := by omega
      rw [e1]
      simp only [hexChars, List.getElem?_cons_succ]
      exact hj

theorem hexChars_mem (bs : Bytes) : ∀ c ∈ hexChars bs, c ∈ "0123456789abcdef".toList := by
  induction bs with
  | nil => intro c h; simp [hexChars] at h
  | cons b bs ih =>
    intro c h
    have hb := UInt8.toNat_lt b
    simp only [hexChars, List.mem_cons] at h
    rcases h with h | h | h
    · rw [h]; exact hexDigit_mem _ (by omega)
    · rw [h]; exact hexDigit_mem _ (by omega)
    · exact ih c h

theorem hexChars_injective : ∀ a b : Bytes, hexChars a = hexChars b → a = b := by
  intro a
  induction a with
  | nil =>
    intro b h
    cases b with
    | nil => rfl
    | cons y ys => simp [hexChars] at h
  | cons x xs ih =>
    intro b h
    cases b with
    | nil => simp [hexChars] at h
    | cons y ys =>
      simp only [hexChars, List.cons.injEq] at h
      obtain ⟨h1, h2, h3⟩ := h
      have hx := UInt8.toNat_lt x
      have hy := UInt8.toNat_lt y
      have q := congrArg hexValue h1
      have r := congrArg hexValue h2
      rw [hexValue_hexDigit _ (by omega), hexValue_hexDigit _ (by omega)] at q r
      have hxy : x = y := UInt8.toNat.inj (by omega)
      rw [hxy, ih ys h3]

/-- C13: Hash is the lower-case hexadecimal rendering of the SHA-256 digest of the bytes,
whatever the receiver. For a digest of 32 bytes the string has exactly 64 characters, each
among 0-9 and a-f, and the characters at positions 2i and 2i+1 are the digits of the high
and of the low half of the i-th byte of the digest. -/
theorem Hash_lowercase_hex (sum256 : Bytes → Bytes) (d : GrafanaDashboard) (b : ByteSlice)
    (hlen : (sum256 b.content).length = 32) :
    (d.Hash sum256 b).length = 64 ∧
    (∀ c ∈ (d.Hash sum256 b).toList, c ∈ "0123456789abcdef".toList) ∧
    (∀ i : Nat, i < 32 → ∃ (x : UInt8) (c1 c2 : Char),
      (sum256 b.content)[i]? = some x ∧
      (d.Hash sum256 b).toList[2 * i]? = some c1 ∧
      (d.Hash sum256 b).toList[2 * i + 1]? = some c2 ∧
      hexValue c1 = x.toNat / 16 ∧ hexValue c2 = x.toNat % 16) := by
  refine ⟨?_, ?_, ?_⟩
  · simp only [GrafanaDashboard.Hash, String.length_mk, hexChars_length, hlen]
  · exact hexChars_mem _
  · intro i hi
    have hi2 : i < (sum256 b.content).length := by omega
    have hx := UInt8.toNat_lt ((sum256 b.content)[i])
    have hget : (sum256 b.content)[i]? = some ((sum256 b.content)[i]) :=
      List.getElem?_eq_getElem hi2
    obtain ⟨p1, p2⟩ := hexChars_pair _ i _ hget
    exact ⟨_, _, _, hget, p1, p2, hexValue_hexDigit _ (by omega), hexValue_hexDigit _ (by omega)⟩

/-- Witness of C13: the hash of the empty content under SHA-256. -/
theorem Hash_lowercase_hex_witness :
    (sha256 (ByteSlice.content (some []))).length = 32 ∧
    zeroDashboard.Hash sha256 (some []) =
      "e3b0c44298fc1c149afbf4c8996fb92427ae41e4649b934ca495991b7852b855" ∧
    (zeroDashboard.Hash sha256 (some [])).length = 64 ∧
    (∀ c ∈ (zeroDashboard.Hash sha256 (some [])).toList, c ∈ "0123456789abcdef".toList) ∧
    (∀ i : Nat, i < 32 → ∃ (x : UInt8) (c1 c2 : Char),
      (sha256 (ByteSlice.content (some [])))[i]? = some x ∧
      (zeroDashboard.Hash sha256 (some [])).toList[2 * i]? = some c1 ∧
      (zeroDashboard.Hash sha256 (some [])).toList[2 * i + 1]? = some c2 ∧
      hexValue c1 = x.toNat / 16 ∧ hexValue c2 = x.toNat % 16) :=
  ⟨by decide, by decide, Hash_lowercase_hex sha256 zeroDashboard (some []) (by decide)⟩

/-- C14: Unchanged(h) is true iff Status.Hash and h are the same string; so for a dashboard
whose Status.Hash was set to the hash of b, Unchanged of the hash of another content is true
iff the two hashes are equal. -/
theorem Unchanged_iff (d : GrafanaDashboard) (h : String) (sum256 : Bytes → Bytes)
    (r1 r2 : GrafanaDashboard) (b b1 : ByteSlice) :
    (d.Unchanged h = true ↔ d.Status.Hash = h) ∧
    (d.Status.Hash = r1.Hash sum256 b →
      (d.Unchanged (r2.Hash sum256 b1) = true ↔ r2.Hash sum256 b1 = r1.Hash sum256 b)) := by
  refine ⟨by simp [GrafanaDashboard.Unchanged], fun hd => ?_⟩
  simp only [GrafanaDashboard.Unchanged, decide_eq_true_eq, hd]
  exact eq_comm

/-- Witness of C14: a dashboard that stores the hash of the empty content is unchanged for
the empty content and changed for the content of one byte. -/
theorem Unchanged_iff_witness :
    (GrafanaDashboard.Unchanged
        { zeroDashboard with
          Status := { zeroDashboard.Status with Hash := zeroDashboard.Hash sha256 (some []) } }
        (zeroDashboard.Hash sha256 (some [1])) = true ↔
      zeroDashboard.Hash sha256 (some [1]) = zeroDashboard.Hash sha256 (some [])) :=
  (Unchanged_iff
    { zeroDashboard with
      Status := { zeroDashboard.Status with Hash := zeroDashboard.Hash sha256 (some []) } }
    "" sha256 zeroDashboard zeroDashboard (some []) (some [1])).2 rfl

/-- C15: IsAllowCrossNamespaceImport is false when Spec.AllowCrossNamespaceImport is nil and
otherwise the boolean it points to. -/
theorem IsAllowCrossNamespaceImport_eq (d : GrafanaDashboard) :
    (d.Spec.AllowCrossNamespaceImport = none → d.IsAllowCrossNamespaceImport = false) ∧
    (∀ v : Bool, d.Spec.AllowCrossNamespaceImport = some v →
      d.IsAllowCrossNamespaceImport = v) := by
  unfold GrafanaDashboard.IsAllowCrossNamespaceImport
  constructor
  · intro h; rw [h]
  · intro v h; rw [h]

/-- Witness of C15: the flag unset, set to true and set to false. -/
theorem IsAllowCrossNamespaceImport_eq_witness :
    zeroDashboard.IsAllowCrossNamespaceImport = false ∧
    GrafanaDashboard.IsAllowCrossNamespaceImport
      { zeroDashboard with
        Spec := { zeroDashboard.Spec with AllowCrossNamespaceImport := some true } } = true ∧
    GrafanaDashboard.IsAllowCrossNamespaceImport
      { zeroDashboard with
        Spec := { zeroDashboard.Spec with AllowCrossNamespaceImport := some false } } = false :=
  ⟨(IsAllowCrossNamespaceImport_eq zeroDashboard).1 rfl,
   (IsAllowCrossNamespaceImport_eq _).2 true rfl,
   (IsAllowCrossNamespaceImport_eq _).2 false rfl⟩

/-- C19: the hash of b1 on one receiver equals the hash of b2 on another iff the SHA-256
digests of b1 and b2 are equal: the same bytes give the same string on every receiver, and
two different digests never give the same string. -/
theorem Hash_eq_iff (sum256 : Bytes → Bytes) (d1 d2 : GrafanaDashboard) (b1 b2 : ByteSlice) :
    (d1.Hash sum256 b1 = d2.Hash sum256 b2 ↔ sum256 b1.content = sum256 b2.content) ∧
    d1.Hash sum256 b1 = d2.Hash sum256 b1 ∧
    (sum256 b1.content ≠ sum256 b2.content → d1.Hash sum256 b1 ≠ d2.Hash sum256 b2) := by
  have hiff : d1.Hash sum256 b1 = d2.Hash sum256 b2 ↔
      sum256 b1.content = sum256 b2.content := by
    constructor
    · intro h
      exact hexChars_injective _ _ (congrArg String.data h)
    · intro h
      simp only [GrafanaDashboard.Hash, h]
  exact ⟨hiff, rfl, fun hne h => hne (hiff.mp h)⟩

/-! ## Theorems: lookup in a list -/

/-- The loop of Find returns nothing exactly when no item matches. -/
theorem findItems_none (ns n : String) (items : List GrafanaDashboard) :
    findItems ns n items = none ↔
      ∀ item ∈ items, ¬ (item.Namespace = ns ∧ item.Name = n) := by
  induction items with
  | nil => simp [findItems]
  | cons x xs ih =>
    by_cases hx : x.Namespace = ns ∧ x.Name = n
    · simp [findItems, hx]
    · simp only [findItems, hx, if_false, ih, List.mem_cons, forall_eq_or_imp, not_false_eq_true,
        true_and]

/-- The item the loop of Find returns matches, and no item before it in the list does. -/
theorem findItems_some (ns n : String) (items : List GrafanaDashboard) (x : GrafanaDashboard)
    (h : findItems ns n items = some x) :
    ∃ before after, items = before ++ x :: after ∧ x.Namespace = ns ∧ x.Name = n ∧
      ∀ y ∈ before, ¬ (y.Namespace = ns ∧ y.Name = n) := by
  induction items with
  | nil => simp [findItems] at h
  | cons y ys ih =>
    by_cases hy : y.Namespace = ns ∧ y.Name = n
    · simp only [findItems, hy, and_self, if_true, Option.some.injEq] at h
      subst h
      exact ⟨[], ys, rfl, hy.1, hy.2, by simp⟩
    · simp only [findItems, hy, if_false] at h
      obtain ⟨before, after, he, h1, h2, h3⟩ := ih h
      refine ⟨y :: before, after, by rw [he]; rfl, h1, h2, ?_⟩
      intro z hz
      rcases List.mem_cons.mp hz with hz | hz
      · rw [hz]; exact hy
      · exact h3 z hz

/-- C20: Find(ns, n) returns nil iff no item of the list has Namespace ns and Name n;
otherwise it returns a dashboard equal to the first item, in list order, with that namespace
and name. The list is an argument that the function only reads. -/
theorem Find_first_match (l : GrafanaDashboardList) (ns n : String) :
    (l.Find ns n = none ↔ ∀ item ∈ l.Items, ¬ (item.Namespace = ns ∧ item.Name = n)) ∧
    (∀ x : GrafanaDashboard, l.Find ns n = some x →
      ∃ before after, l.Items = before ++ x :: after ∧ x.Namespace = ns ∧ x.Name = n ∧
        ∀ y ∈ before, ¬ (y.Namespace = ns ∧ y.Name = n)) ∧
    ((∃ item ∈ l.Items, item.Namespace = ns ∧ item.Name = n) → ∃ x, l.Find ns n = some x) := by
  refine ⟨findItems_none ns n l.Items, fun x h => findItems_some ns n l.Items x h, ?_⟩
  rintro ⟨item, hmem, hmatch⟩
  cases hf : l.Find ns n with
  | some x => exact ⟨x, rfl⟩
  | none => exact absurd hmatch ((findItems_none ns n l.Items).mp hf item hmem)

/-- Witness of C20: of two items named mem in the namespace dev the first is returned, and
a name that no item carries gives nil. -/
theorem Find_first_match_witness :
    sampleList.Find "dev" "mem" = some (namedDashboard "dev" "mem" "b") ∧
    sampleList.Find "dev" "cpu" = none ∧
    (∃ before after, sampleList.Items = before ++ namedDashboard "dev" "mem" "b" :: after ∧
      (namedDashboard "dev" "mem" "b").Namespace = "dev" ∧
      (namedDashboard "dev" "mem" "b").Name = "mem" ∧
      ∀ y ∈ before, ¬ (y.Namespace = "dev" ∧ y.Name = "mem")) :=
  ⟨by decide, by decide,
   (Find_first_match sampleList "dev" "mem").2.1 (namedDashboard "dev" "mem" "b") (by decide)⟩

/-! ## Theorems: what the methods leave of the receiver -/

theorem HashCall_run (sum256 : Bytes → Bytes) (b : ByteSlice) (d : GrafanaDashboard) :
    (GrafanaDashboard.HashCall sum256 b).run d = (d.Hash sum256 b, d) := rfl

theorem UnchangedCall_run (h : String) (d : GrafanaDashboard) :
    (GrafanaDashboard.UnchangedCall h).run d = (d.Unchanged h, d) := rfl

theorem GetSourceTypesCall_run (d : GrafanaDashboard) :
    GrafanaDashboard.GetSourceTypesCall.run d = (d.GetSourceTypes, d) := by
  unfold GrafanaDashboard.GetSourceTypesCall GrafanaDashboard.GetSourceTypes
  by_cases h1 : d.Spec.Json = "" <;> by_cases h2 : d.Spec.GzipJson = none <;>
    by_cases h3 : d.Spec.Url = "" <;> by_cases h4 : d.Spec.Jsonnet = "" <;>
    by_cases h5 : d.Spec.GrafanaCom = none <;>
    simp [h1, h2, h3, h4, h5, StateT.run, bind, StateT.bind, get, getThe, MonadStateOf.get,
      StateT.get, pure, StateT.pure]

theorem getContentCacheCall_run (lib : GzipLib) (now : Time) (url : String) (dur : Duration)
    (st : GrafanaDashboardStatus) :
    (GrafanaDashboardStatus.getContentCacheCall lib now url dur).run st =
      (st.getContentCache lib now url dur, st) := by
  unfold GrafanaDashboardStatus.getContentCacheCall GrafanaDashboardStatus.getContentCache
  by_cases hu : st.ContentUrl = url
  · cases hb : (decide (dur ≤ 0) || (st.ContentTimestamp.Add dur).After now)
    · simp [hu, hb, StateT.run, bind, StateT.bind, get, getThe, MonadStateOf.get,
        StateT.get, pure, StateT.pure]
    · rcases hg : Gunzip lib st.ContentCache with ⟨cache, _ | e⟩ <;>
        simp [hu, hb, hg, StateT.run, bind, StateT.bind, get, getThe, MonadStateOf.get,
          StateT.get, pure, StateT.pure]
  · simp [hu, StateT.run, bind, StateT.bind, get, getThe, MonadStateOf.get,
      StateT.get, pure, StateT.pure]

theorem GetContentCacheCall_run (lib : GzipLib) (now : Time) (d : GrafanaDashboard) :
    (GrafanaDashboard.GetContentCacheCall lib now).run d = (d.GetContentCache lib now, d) := by
  have h : GrafanaDashboardStatus.getContentCacheCall lib now d.Spec.Url
      d.Spec.ContentCacheDuration d.Status =
      (d.Status.getContentCache lib now d.Spec.Url d.Spec.ContentCacheDuration, d.Status) :=
    getContentCacheCall_run lib now d.Spec.Url d.Spec.ContentCacheDuration d.Status
  unfold GrafanaDashboard.GetContentCacheCall GrafanaDashboard.GetContentCache
  simp [h, StateT.run, bind, StateT.bind, get, getThe, MonadStateOf.get,
    StateT.get, pure, StateT.pure, set, StateT.set]

theorem IsAllowCrossNamespaceImportCall_run (d : GrafanaDashboard) :
    GrafanaDashboard.IsAllowCrossNamespaceImportCall.run d =
      (d.IsAllowCrossNamespaceImport, d) := by
  unfold GrafanaDashboard.IsAllowCrossNamespaceImportCall
    GrafanaDashboard.IsAllowCrossNamespaceImport
  cases h : d.Spec.AllowCrossNamespaceImport <;>
    simp [h, StateT.run, bind, StateT.bind, get, getThe, MonadStateOf.get,
      StateT.get, pure, StateT.pure]

/-- C18: the only assignment is the one to the stored resync period. The dashboard that
GetResyncPeriod and ResyncPeriodHasElapsed leave behind equals the one they were called on in
every field but Spec.ResyncPeriod, and in that field too when it held a non-empty string that
parses. Hash, Unchanged, GetSourceTypes, GetContentCache and IsAllowCrossNamespaceImport,
run as computations on the receiver, leave behind the very dashboard (spec and status) they
were called on, and return what the functions of the same names return. -/
theorem resync_only_mutation (parse : String → Option Duration) (p0 : Duration)
    (hparse : parse DefaultResyncPeriod = some p0) (fuel : Nat) (hfuel : 2 ≤ fuel)
    (d : GrafanaDashboard) (sum256 : Bytes → Bytes) (b : ByteSlice) (h : String)
    (lib : GzipLib) (now : Time) :
    (∃ P d1, d.GetResyncPeriod parse fuel = some (P, d1) ∧
      (∀ t : Time, ∃ r, d.ResyncPeriodHasElapsed parse fuel t = some (r, d1)) ∧
      d1 = { d with Spec := { d.Spec with ResyncPeriod := d1.Spec.ResyncPeriod } } ∧
      (d.Spec.ResyncPeriod ≠ "" ∧ parse d.Spec.ResyncPeriod ≠ none → d1 = d)) ∧
    (GrafanaDashboard.HashCall sum256 b).run d = (d.Hash sum256 b, d) ∧
    (GrafanaDashboard.UnchangedCall h).run d = (d.Unchanged h, d) ∧
    GrafanaDashboard.GetSourceTypesCall.run d = (d.GetSourceTypes, d) ∧
    (GrafanaDashboard.GetContentCacheCall lib now).run d = (d.GetContentCache lib now, d) ∧
    GrafanaDashboard.IsAllowCrossNamespaceImportCall.run d =
      (d.IsAllowCrossNamespaceImport, d) := by
  refine ⟨?_, HashCall_run sum256 b d, UnchangedCall_run h d, GetSourceTypesCall_run d,
    GetContentCacheCall_run lib now d, IsAllowCrossNamespaceImportCall_run d⟩
  obtain ⟨P, d1, hget, _⟩ := GetResyncPeriod_returns parse p0 hparse fuel hfuel d
  refine ⟨P, d1, hget, fun t => ?_, GetResyncPeriod_frame parse fuel d P d1 hget, ?_⟩
  · simp [GrafanaDashboard.ResyncPeriodHasElapsed, hget]
  · rintro ⟨hne, hp⟩
    obtain ⟨n, rfl⟩ : ∃ n, fuel = n + 2 := ⟨fuel - 2, by omega⟩
    cases hq : parse d.Spec.ResyncPeriod with
    | none => exact absurd hq hp
    | some p =>
      rw [GetResyncPeriod_parsed parse (n + 1) d p hne hq] at hget
      simp only [Option.some.injEq, Prod.mk.injEq] at hget
      exact hget.2.symm

/-- Witness of C18: the dashboard with the period "1h" is left as it was by all seven
methods. -/
theorem resync_only_mutation_witness :
    ParseDuration fracFloor DefaultResyncPeriod = some (5 * Minute) ∧
    (∃ P d1, hourlyDashboard.GetResyncPeriod (ParseDuration fracFloor) 2 = some (P, d1) ∧
      (∀ t : Time, ∃ r,
        hourlyDashboard.ResyncPeriodHasElapsed (ParseDuration fracFloor) 2 t = some (r, d1)) ∧
      d1 = { hourlyDashboard with
        Spec := { hourlyDashboard.Spec with ResyncPeriod := d1.Spec.ResyncPeriod } } ∧
      (hourlyDashboard.Spec.ResyncPeriod ≠ "" ∧
        ParseDuration fracFloor hourlyDashboard.Spec.ResyncPeriod ≠ none →
          d1 = hourlyDashboard)) ∧
    (GrafanaDashboard.HashCall sha256 (some [])).run hourlyDashboard =
      (hourlyDashboard.Hash sha256 (some []), hourlyDashboard) ∧
    (GrafanaDashboard.UnchangedCall "").run hourlyDashboard =
      (hourlyDashboard.Unchanged "", hourlyDashboard) ∧
    GrafanaDashboard.GetSourceTypesCall.run hourlyDashboard =
      (hourlyDashboard.GetSourceTypes, hourlyDashboard) ∧
    (GrafanaDashboard.GetContentCacheCall plainLib ⟨0⟩).run hourlyDashboard =
      (hourlyDashboard.GetContentCache plainLib ⟨0⟩, hourlyDashboard) ∧
    GrafanaDashboard.IsAllowCrossNamespaceImportCall.run hourlyDashboard =
      (hourlyDashboard.IsAllowCrossNamespaceImport, hourlyDashboard) :=
  ⟨by decide,
   resync_only_mutation (ParseDuration fracFloor) (5 * Minute) (by decide) 2 (le_refl 2)
     hourlyDashboard sha256 (some []) "" plainLib ⟨0⟩⟩

end V1beta1
